import Mathlib

/-!
A shallow embedding of `pyfolio/bayesian.py` and proofs about it.

Numeric arrays are embedded as `List ℚ` (machine floats are embedded as exact
rationals; every operation the file performs on them — sums, products,
divisions, comparisons — is field arithmetic).  Two-dimensional numpy arrays
are embedded as `List (List ℚ)`, row major, with rectangularity (`Rect`)
stated as a hypothesis where numpy would enforce it by construction.
Fallible Python code returns `Except PyErr`.
-/

/-- Python exceptions the embedded code can raise. -/
inductive PyErr where
  | nameError (name : String)
  | keyError (name : String)
  | typeError (msg : String)
  | notImplementedError (msg : String)
  | indexError (index : Int)
  | valueError (msg : String)
  | attributeError (msg : String)
  | plotError (msg : String)
deriving DecidableEq, Repr

/-- Cumulative products of a list with accumulator `acc`:
`cumprodAux acc [x₁, x₂, …] = [acc*x₁, acc*x₁*x₂, …]`. -/
def cumprodAux (acc : ℚ) : List ℚ → List ℚ
  | [] => []
  | x :: xs => (acc * x) :: cumprodAux (acc * x) xs

/-- Embedding of `np.cumprod(m + 1, 1)`: elementwise `r + 1`, then cumulative product along
each row (axis 1). -/
def np_cumprod1p (m : List (List ℚ)) : List (List ℚ) :=
  m.map (fun row => cumprodAux 1 (row.map (fun r => r + 1)))

/-- The column count of a row-major rectangular matrix (numpy carries the
shape with the array; for a `List (List ℚ)` it is the first row's length). -/
def npWidth (m : List (List ℚ)) : ℕ :=
  (m.headD []).length

/-- All rows have the matrix's width — numpy arrays are rectangular by
construction, so embedded code states this as a hypothesis. -/
def Rect (m : List (List ℚ)) : Prop :=
  ∀ row ∈ m, row.length = npWidth m

instance (m : List (List ℚ)) : Decidable (Rect m) := by
  unfold Rect; infer_instance

/-- Numpy transpose `m.T` of a rectangular matrix: entry (t, s) of the result
is entry (s, t) of `m`. -/
def npT (m : List (List ℚ)) : List (List ℚ) :=
  (List.range (npWidth m)).map (fun t => m.map (fun row => row.getD t 0))

/-- Column `i` of a 2-D numpy array, `m[:, i]`: bounds-checked against the
array's column count; out of range raises `IndexError`. -/
def npColumn (m : List (List ℚ)) (i : ℕ) : Except PyErr (List ℚ) :=
  if i < npWidth m then .ok (m.map (fun row => row.getD i 0))
  else .error (.indexError i)

/-- Embedding of `np.mean`: sum divided by length. -/
def npMean (xs : List ℚ) : ℚ :=
  xs.sum / (xs.length : ℚ)

/-- Embedding of `scipy.stats.scoreatpercentile(a, per)` with the default
interpolation between order statistics: sort `a`, let
`idx = per/100 * (n - 1)`, and linearly interpolate between the order
statistics bracketing `idx`. -/
def scoreatpercentile (a : List ℚ) (per : ℚ) : ℚ :=
  let values := a.insertionSort (· ≤ ·)
  let idx : ℚ := per / 100 * ((values.length : ℚ) - 1)
  let i : ℕ := (⌊idx⌋).toNat
  let frac : ℚ := idx - (i : ℚ)
  values.getD i 0 + frac * (values.getD (i + 1) 0 - values.getD i 0)

/-- Embedding of `scipy.stats.percentileofscore(a, score, kind='weak')`:
`sum(a <= score) / n * 100`. -/
def percentileofscore_weak (a : List ℚ) (score : ℚ) : ℚ :=
  ((a.countP (fun x => decide (x ≤ score)) : ℚ) / (a.length : ℚ)) * 100

/-- Modelled from the spec: the external cumulative-return transform
`pyfolio.timeseries.cum_returns` (imported by the source, not itself under
`src/`) maps a simple-return series and a starting value to the
cumulative-return series `cumprod(1 + r) * starting_value`. -/
def cum_returns (returns : List ℚ) (starting_value : ℚ) : List ℚ :=
  (cumprodAux 1 (returns.map (fun r => r + 1))).map (fun c => c * starting_value)

/-- The helper closed over inside `compute_bayes_cone`:
`[stats.scoreatpercentile(c, p) for c in cum_preds.T]`. -/
def coneScoreatpercentile (cum_preds : List (List ℚ)) (p : ℚ) : List ℚ :=
  (npT cum_preds).map (fun c => scoreatpercentile c p)

/-- Embedding of `compute_bayes_cone(preds, starting_value)`: cumulative returns
`np.cumprod(preds + 1, 1) * starting_value`, then the 5/25/75/95 percentile of
each column, returned as the dict `{p: …  for p in (5, 25, 75, 95)}`. -/
def compute_bayes_cone (preds : List (List ℚ)) (starting_value : ℚ) :
    List (ℕ × List ℚ) :=
  let cum_preds := (np_cumprod1p preds).map (fun row => row.map (fun c => c * starting_value))
  [5, 25, 75, 95].map (fun p => (p, coneScoreatpercentile cum_preds (p : ℚ)))

/-- A Python list comprehension whose body may raise: evaluate the body left
to right, collecting results, aborting at the first exception. -/
def pyListComp (f : ℕ → Except PyErr ℚ) : List ℕ → Except PyErr (List ℚ)
  | [] => .ok []
  | i :: is => do
    let v ← f i
    let vs ← pyListComp f is
    pure (v :: vs)

/-- Embedding of `compute_consistency_score(returns_test, preds)`: the realized cumulative
path anchored at 1.0, the simulated cumulative paths, the per-step weak
percentile rank of the realized value in column `i` of the simulated paths,
and finally `100 - |50 - mean(q)| / .5`. -/
def compute_consistency_score (returns_test : List ℚ) (preds : List (List ℚ)) :
    Except PyErr ℚ := do
  let returns_test_cum := cum_returns returns_test 1
  let cum_preds := np_cumprod1p preds
  let q ← pyListComp
    (fun i => do
      let col ← npColumn cum_preds i
      pure (percentileofscore_weak col (returns_test_cum.getD i 0)))
    (List.range returns_test_cum.length)
  pure (100 - |50 - npMean q| / (0.5 : ℚ))

/-! ## The model-lifecycle layer

`BayesianModel` instances hold mutable state (`cached_model`, `shared_vars`);
the embedding passes that state explicitly and returns the updated state next
to the result.  Observed-data arrays may contain missing entries (`NaN` after
a pandas reindex), embedded as `Option ℚ` with `none` for a missing value.
The subclasses differ only in their `create_model` override, so `run` and
`cache_model` take the overriding builder as a function argument. -/

/-- An observed-data array: `none` is a missing (NaN) entry. -/
abbrev Obs := List (Option ℚ)

/-- The opaque model object a builder returns: the named free parameters, the
named deterministic quantities, and the named observed variables it declared,
in declaration order. -/
structure ModelSpec where
  params : List String
  deterministics : List String
  observed : List String
deriving DecidableEq, Repr

/-- The posterior trace `pm.sample` returns: the number of draws (the same
for every variable of one run), the variable names, and the block of
simulated draws for missing observations that `trace['returns_missing']`
reads. -/
structure Trace where
  draws : ℕ
  varNames : List String
  returns_missing : List (List ℚ)
deriving DecidableEq, Repr

/-- The mutable state of one `BayesianModel` instance: the class attribute
`samples = 2000`, and the `__init__`-set `cached_model = None`,
`shared_vars = {}`. -/
structure BayesianModel where
  samples : ℕ
  cached_model : Option ModelSpec
  shared_vars : List (String × Obs)
deriving DecidableEq, Repr

/-- A freshly constructed instance: `samples` from the class attribute,
`cached_model = None`, `shared_vars = {}` (the `cache_model=True` argument of
`__init__` is accepted and ignored by the source). -/
def pyfolioFreshModel : BayesianModel :=
  { samples := 2000, cached_model := none, shared_vars := [] }

/-- Embedding of `self._create_shared_vars(**inputs)`: one named shared variable per
input, holding `np.asarray(data)` — a copy of the supplied array. -/
def _create_shared_vars (inputs : List (String × Obs)) : List (String × Obs) :=
  inputs

/-- Replace the value stored under key `k` of a Python dict (the dict's keys
and their order are unchanged). -/
def assocSet (l : List (String × Obs)) (k : String) (v : Obs) :
    List (String × Obs) :=
  l.map (fun p => if p.1 = k then (k, v) else p)

/-- Embedding of the rebind loop `for name, data in inputs.items(): self.shared_vars[name].set_value(data)`:
rebind each named shared variable in turn; a name with no shared variable
raises `KeyError` there, keeping the rebinds already performed. -/
def setSharedValues : List (String × Obs) → List (String × Obs) →
    List (String × Obs) × Except PyErr Unit
  | shared, [] => (shared, .ok ())
  | shared, (name, data) :: rest =>
    if (shared.lookup name).isSome then
      setSharedValues (assocSet shared name data) rest
    else (shared, .error (.keyError name))

/-- Embedding of `self.cache_model(**inputs)`: set `shared_vars`, then build and cache the
model; if the builder raises, `shared_vars` stays set and `cached_model`
stays `None`. -/
def BayesianModel.cache_model
    (create_model : List (String × Obs) → Except PyErr ModelSpec)
    (inputs : List (String × Obs)) (self : BayesianModel) :
    BayesianModel × Except PyErr Unit :=
  let self := { self with shared_vars := _create_shared_vars inputs }
  match create_model self.shared_vars with
  | .ok m => ({ self with cached_model := some m }, .ok ())
  | .error e => (self, .error e)

/-- Modelled from the spec: the external Inference Engine
(`pm.find_MAP` with Powell's method, `pm.NUTS` scaled at the MAP point, then
`pm.sample(self.samples, step, start=start)` inside the cached model's
context).  Per the spec it draws exactly `self.samples` posterior draws for
every declared parameter, deterministic quantity and imputed missing
observation; the numeric content of the draws is sampler randomness the spec
does not determine, embedded here as zeros. -/
def BayesianModel._inference (self : BayesianModel) : Except PyErr Trace :=
  match self.cached_model with
  | none => .error (.attributeError "NoneType is not a model context")
  | some spec =>
    let nMissing := (self.shared_vars.map (fun p => p.2.countP (fun x => x.isNone))).sum
    .ok { draws := self.samples
          varNames := spec.params ++ spec.deterministics ++
            (if nMissing > 0 then ["returns_missing"] else [])
          returns_missing := List.replicate self.samples (List.replicate nMissing 0) }

/-- Embedding of `self.run(**inputs)`: build and cache the model if this instance has none
yet, rebind every shared variable to the newly supplied array, then run
inference. -/
def BayesianModel.run
    (create_model : List (String × Obs) → Except PyErr ModelSpec)
    (inputs : List (String × Obs)) (self : BayesianModel) :
    BayesianModel × Except PyErr Trace :=
  let step := if self.cached_model.isNone
    then self.cache_model create_model inputs
    else (self, .ok ())
  match step with
  | (self, .error e) => (self, .error e)
  | (self, .ok ()) =>
    match setSharedValues self.shared_vars inputs with
    | (shared, .error e) => ({ self with shared_vars := shared }, .error e)
    | (shared, .ok ()) =>
      let self := { self with shared_vars := shared }
      (self, self._inference)

/-- The names bound at module scope of `pyfolio/bayesian.py`: the imports and
every class, instance and function the module defines.  (Python builtins are
a separate final scope; `data_no_missing` is not a builtin either.) -/
def bayesianModuleScope : List String :=
  ["division", "np", "pd", "sp", "stats", "sns", "plt", "shared", "pm", "T",
   "cum_returns", "BayesianModel", "ReturnsNormal", "returns_normal",
   "ReturnsT", "returns_t", "BEST", "best", "ReturnsAlphaBeta",
   "returns_alpha_beta", "compute_bayes_cone", "compute_consistency_score",
   "_plot_bayes_cone", "run_model", "plot_bayes_cone"]

/-- Evaluating a bare name in a method body: look it up among the local
names, then at module scope; an unbound name raises `NameError`. -/
def resolveName (locals : List String) (name : String) : Except PyErr Unit :=
  if name ∈ locals ∨ name ∈ bayesianModuleScope then .ok ()
  else .error (.nameError name)

/-- Embedding of `ReturnsNormal.create_model(self, data=None)`: priors `mean returns` and
`volatility`, likelihood `returns` observed on `data`, deterministics
`annual volatility` and `sharpe`.  (The numeric testvals and the prior
hyperparameters live inside the opaque model object.) -/
def ReturnsNormal.create_model (kwargs : List (String × Obs)) :
    Except PyErr ModelSpec :=
  let _data := kwargs.lookup "data"
  .ok { params := ["mean returns", "volatility"]
        deterministics := ["annual volatility", "sharpe"]
        observed := ["returns"] }

/-- Embedding of `ReturnsT.create_model(self, data=None)`: like the normal model plus the
tail parameter `nu_minus_two`; likelihood `returns` is Student-T. -/
def ReturnsT.create_model (kwargs : List (String × Obs)) :
    Except PyErr ModelSpec :=
  let _data := kwargs.lookup "data"
  .ok { params := ["mean returns", "volatility", "nu_minus_two"]
        deterministics := ["annual volatility", "sharpe"]
        observed := ["returns"] }

/-- Embedding of `BEST.create_model(self, y1=None, y2=None)`: the two-group comparison
model with pooled hyperpriors, per-group means and scales, a shared
`nu_minus_one`, and three deterministic contrasts. -/
def BEST.create_model (kwargs : List (String × Obs)) :
    Except PyErr ModelSpec :=
  let _y1 := kwargs.lookup "y1"
  let _y2 := kwargs.lookup "y2"
  .ok { params := ["group1_mean", "group2_mean", "group1_std", "group2_std",
                   "nu_minus_one"]
        deterministics := ["difference of means", "difference of stds",
                           "effect size"]
        observed := ["group1", "group2"] }

/-- Embedding of `ReturnsAlphaBeta.create_model(self, data=None, bmark=None)`: the first
statement of the body evaluates
`testval=data_no_missing.values.std()`, and `data_no_missing` is neither a
local of the method (`self`, `data`, `bmark`; `model` is bound later by the
`with` statement) nor bound at module scope, so `NameError` is raised before
any model object is produced. -/
def ReturnsAlphaBeta.create_model (kwargs : List (String × Obs)) :
    Except PyErr ModelSpec := do
  let _data := kwargs.lookup "data"
  let _bmark := kwargs.lookup "bmark"
  resolveName ["self", "data", "bmark", "model"] "data_no_missing"
  .ok { params := ["sigma", "nu_minus_two", "alpha", "beta"]
        deterministics := []
        observed := ["returns"] }

/-- The four module-level singleton instances
(`returns_normal = ReturnsNormal()` … `returns_alpha_beta =
ReturnsAlphaBeta()`). -/
structure Models where
  returns_normal : BayesianModel
  returns_t : BayesianModel
  best : BayesianModel
  returns_alpha_beta : BayesianModel
deriving DecidableEq, Repr

/-- The module's state right after import: four fresh instances. -/
def pyfolioModels : Models :=
  { returns_normal := pyfolioFreshModel
    returns_t := pyfolioFreshModel
    best := pyfolioFreshModel
    returns_alpha_beta := pyfolioFreshModel }

/-- Embedding of `np.asarray` applied to an optional series argument that defaults to
`None`: a supplied series becomes a fully observed array.  (For an absent
series the source would wrap `None` itself into a 0-d object array; no claim
reaches that state, and it is embedded as the empty array.) -/
def npAsArrayOpt (o : Option (List ℚ)) : Obs :=
  (o.getD []).map some

/-- Embedding of `run_model(model, returns_train, returns_test=None, bmark=None,
samples=500)`: when out-of-sample returns are supplied,
`pd.Series(returns_train, train.index.append(test.index))` reindexes the
training series over the combined dates, leaving the test dates missing;
then dispatch on the model name to the matching singleton's `run`.  The
`samples` argument is accepted but never forwarded. -/
def run_model (model : String) (returns_train : List ℚ)
    (returns_test : Option (List ℚ)) (bmark : Option (List ℚ))
    (samples : ℕ) (st : Models) : Models × Except PyErr Trace :=
  let _ := samples
  let rets : Obs :=
    match returns_test with
    | some test => returns_train.map some ++ test.map (fun _ => none)
    | none => returns_train.map some
  if model = "alpha_beta" then
    let (m, r) := st.returns_alpha_beta.run ReturnsAlphaBeta.create_model
      [("data", returns_train.map some), ("bmark", npAsArrayOpt bmark)]
    ({ st with returns_alpha_beta := m }, r)
  else if model = "t" then
    let (m, r) := st.returns_t.run ReturnsT.create_model [("data", rets)]
    ({ st with returns_t := m }, r)
  else if model = "normal" then
    let (m, r) := st.returns_normal.run ReturnsNormal.create_model [("data", rets)]
    ({ st with returns_normal := m }, r)
  else if model = "best" then
    let (m, r) := st.best.run BEST.create_model
      [("y1", returns_train.map some), ("y2", npAsArrayOpt returns_test)]
    ({ st with best := m }, r)
  else
    (st, .error (.notImplementedError
      ("Model " ++ model ++ " not found.Use alpha_beta, t, normal, or best.")))

/-! ## Basic lemmas about the embedded numpy/scipy primitives -/

theorem length_cumprodAux (acc : ℚ) (xs : List ℚ) :
    (cumprodAux acc xs).length = xs.length := by
  induction xs generalizing acc with
  | nil => rfl
  | cons x xs ih => simp [cumprodAux, ih]

theorem getD_cumprodAux (acc : ℚ) (xs : List ℚ) (t : ℕ) (h : t < xs.length) :
    (cumprodAux acc xs).getD t 0 = acc * (xs.take (t + 1)).prod := by
  induction xs generalizing acc t with
  | nil => simp at h
  | cons x xs ih =>
    cases t with
    | zero => simp [cumprodAux]
    | succ n =>
      have hn : n < xs.length := by simpa using h
      rw [show cumprodAux acc (x :: xs) = (acc * x) :: cumprodAux (acc * x) xs from rfl,
        List.getD_cons_succ, ih (acc * x) n hn]
      simp [mul_assoc]

theorem length_cum_returns (returns : List ℚ) (sv : ℚ) :
    (cum_returns returns sv).length = returns.length := by
  simp [cum_returns, length_cumprodAux]

theorem getD_cum_returns (returns : List ℚ) (sv : ℚ) (i : ℕ)
    (h : i < returns.length) :
    (cum_returns returns sv).getD i 0 =
      ((returns.take (i + 1)).map (fun r => r + 1)).prod * sv := by
  have h1 : i < (returns.map (fun r => r + 1)).length := by simpa using h
  have h2 : i < (cumprodAux 1 (returns.map (fun r => r + 1))).length := by
    simpa [length_cumprodAux] using h1
  rw [cum_returns, List.getD_eq_getElem _ 0 (by simpa using h2),
    List.getElem_map, ← List.getD_eq_getElem _ 0 h2,
    getD_cumprodAux _ _ _ h1, ← List.map_take]
  ring

theorem sorted_getD_le (l : List ℚ) (hs : l.Sorted (· ≤ ·)) (i j : ℕ)
    (hij : i ≤ j) (hj : j < l.length) :
    l.getD i 0 ≤ l.getD j 0 := by
  rcases eq_or_lt_of_le hij with rfl | hlt
  · exact le_refl _
  · have hi : i < l.length := lt_trans hlt hj
    have := List.pairwise_iff_get.mp hs ⟨i, hi⟩ ⟨j, hj⟩ hlt
    rw [List.getD_eq_getElem l 0 hi, List.getD_eq_getElem l 0 hj]
    simpa using this

/-- Monotonicity of linear interpolation along a sorted list: the value read
at position `x` (integer part indexes, fractional part interpolates) is
monotone in `x` over `[0, length - 1]`. -/
theorem sorted_interp_mono (v : List ℚ) (hs : v.Sorted (· ≤ ·)) (x y : ℚ)
    (hx : 0 ≤ x) (hxy : x ≤ y) (hy : y ≤ (v.length : ℚ) - 1) :
    v.getD (⌊x⌋).toNat 0 +
      (x - ((⌊x⌋).toNat : ℚ)) *
        (v.getD ((⌊x⌋).toNat + 1) 0 - v.getD (⌊x⌋).toNat 0) ≤
    v.getD (⌊y⌋).toNat 0 +
      (y - ((⌊y⌋).toNat : ℚ)) *
        (v.getD ((⌊y⌋).toNat + 1) 0 - v.getD (⌊y⌋).toNat 0) := by
  have hy0 : 0 ≤ y := le_trans hx hxy
  have hfx : (0 : ℤ) ≤ ⌊x⌋ := Int.floor_nonneg.mpr hx
  have hfy : (0 : ℤ) ≤ ⌊y⌋ := Int.floor_nonneg.mpr hy0
  have hcx : (((⌊x⌋).toNat : ℚ)) = ((⌊x⌋ : ℤ) : ℚ) := by
    exact_mod_cast congrArg (fun z : ℤ => (z : ℚ)) (Int.toNat_of_nonneg hfx)
  have hcy : (((⌊y⌋).toNat : ℚ)) = ((⌊y⌋ : ℤ) : ℚ) := by
    exact_mod_cast congrArg (fun z : ℤ => (z : ℚ)) (Int.toNat_of_nonneg hfy)
  have hxl : (((⌊x⌋).toNat : ℚ)) ≤ x := by rw [hcx]; exact Int.floor_le x
  have hyl : (((⌊y⌋).toNat : ℚ)) ≤ y := by rw [hcy]; exact Int.floor_le y
  have hxu : x < ((⌊x⌋).toNat : ℚ) + 1 := by rw [hcx]; exact Int.lt_floor_add_one x
  have hixy : (⌊x⌋).toNat ≤ (⌊y⌋).toNat :=
    Int.toNat_le_toNat (Int.floor_le_floor hxy)
  have hn1 : 1 ≤ v.length := by
    by_contra hcon
    have h0 : v.length = 0 := by omega
    rw [h0] at hy
    norm_num at hy
    linarith
  have hiy_lt : (⌊y⌋).toNat < v.length := by
    have h1 : (((⌊y⌋).toNat : ℚ)) ≤ (v.length : ℚ) - 1 := le_trans hyl hy
    have h2 : (((⌊y⌋).toNat : ℚ)) < (v.length : ℚ) := by linarith
    exact_mod_cast h2
  rcases eq_or_lt_of_le hixy with heq | hlt
  · rw [← heq]
    rcases Nat.lt_or_ge ((⌊x⌋).toNat + 1) v.length with hin | hout
    · have hd : 0 ≤ v.getD ((⌊x⌋).toNat + 1) 0 - v.getD (⌊x⌋).toNat 0 :=
        sub_nonneg.mpr (sorted_getD_le v hs _ _ (Nat.le_succ _) hin)
      have := mul_le_mul_of_nonneg_right (sub_le_sub_right hxy (((⌊x⌋).toNat : ℚ))) hd
      linarith
    · -- top cell: both fractional parts are zero there
      have hidx : (⌊x⌋).toNat = v.length - 1 := by omega
      have hq : (((⌊x⌋).toNat : ℚ)) = (v.length : ℚ) - 1 := by
        rw [hidx, Nat.cast_sub hn1]; norm_num
      have h1 : y ≤ (((⌊x⌋).toNat : ℚ)) := by rw [hq]; exact hy
      have h2 : (((⌊y⌋).toNat : ℚ)) ≤ y := hyl
      rw [← heq] at h2
      have hzy : y - (((⌊x⌋).toNat : ℚ)) = 0 := by linarith
      have hzx : x - (((⌊x⌋).toNat : ℚ)) = 0 := by linarith
      rw [hzx, hzy, zero_mul, add_zero]
  · have hsucc : (⌊x⌋).toNat + 1 ≤ (⌊y⌋).toNat := hlt
    have hin : (⌊x⌋).toNat + 1 < v.length := lt_of_le_of_lt hsucc hiy_lt
    have hA : 0 ≤ v.getD ((⌊x⌋).toNat + 1) 0 - v.getD (⌊x⌋).toNat 0 :=
      sub_nonneg.mpr (sorted_getD_le v hs _ _ (Nat.le_succ _) hin)
    have step1 : v.getD (⌊x⌋).toNat 0 +
        (x - ((⌊x⌋).toNat : ℚ)) *
          (v.getD ((⌊x⌋).toNat + 1) 0 - v.getD (⌊x⌋).toNat 0) ≤
        v.getD ((⌊x⌋).toNat + 1) 0 := by
      have hf1 : x - ((⌊x⌋).toNat : ℚ) ≤ 1 := by linarith
      have := mul_le_mul_of_nonneg_right hf1 hA
      linarith
    have step2 : v.getD ((⌊x⌋).toNat + 1) 0 ≤ v.getD (⌊y⌋).toNat 0 :=
      sorted_getD_le v hs _ _ hsucc hiy_lt
    have step3 : v.getD (⌊y⌋).toNat 0 ≤ v.getD (⌊y⌋).toNat 0 +
        (y - ((⌊y⌋).toNat : ℚ)) *
          (v.getD ((⌊y⌋).toNat + 1) 0 - v.getD (⌊y⌋).toNat 0) := by
      rcases Nat.lt_or_ge ((⌊y⌋).toNat + 1) v.length with hin2 | hout2
      · have hd : 0 ≤ v.getD ((⌊y⌋).toNat + 1) 0 - v.getD (⌊y⌋).toNat 0 :=
          sub_nonneg.mpr (sorted_getD_le v hs _ _ (Nat.le_succ _) hin2)
        nlinarith [mul_nonneg (sub_nonneg.mpr hyl) hd]
      · have hidx : (⌊y⌋).toNat = v.length - 1 := by omega
        have hq : (((⌊y⌋).toNat : ℚ)) = (v.length : ℚ) - 1 := by
          rw [hidx, Nat.cast_sub hn1]; norm_num
        have hzy : y - (((⌊y⌋).toNat : ℚ)) = 0 := by
          have : y ≤ (((⌊y⌋).toNat : ℚ)) := by rw [hq]; exact hy
          linarith
        rw [hzy, zero_mul, add_zero]
    linarith

/-- scipy's score-at-percentile is monotone in the percentile level. -/
theorem scoreatpercentile_mono (a : List ℚ) (p q : ℚ)
    (hp : 0 ≤ p) (hpq : p ≤ q) (hq : q ≤ 100) :
    scoreatpercentile a p ≤ scoreatpercentile a q := by
  rcases eq_or_ne a [] with rfl | ha
  · simp [scoreatpercentile]
  · have hlen : 1 ≤ a.length := List.length_pos.mpr ha
    simp only [scoreatpercentile, List.length_insertionSort]
    apply sorted_interp_mono _ (List.sorted_insertionSort _ a)
    · apply mul_nonneg (by positivity)
      have : (1 : ℚ) ≤ (a.length : ℚ) := by exact_mod_cast hlen
      linarith
    · apply mul_le_mul_of_nonneg_right
      · exact div_le_div_of_nonneg_right hpq (by norm_num)
      · have : (1 : ℚ) ≤ (a.length : ℚ) := by exact_mod_cast hlen
        linarith
    · rw [List.length_insertionSort]
      apply mul_le_of_le_one_left
      · have : (1 : ℚ) ≤ (a.length : ℚ) := by exact_mod_cast hlen
        linarith
      · linarith

/-! ## C7: ordering of the cone's percentile bands -/

theorem coneScore_getD_mono (cum : List (List ℚ)) (p q : ℚ)
    (hp : 0 ≤ p) (hpq : p ≤ q) (hq : q ≤ 100) (t : ℕ) :
    (coneScoreatpercentile cum p).getD t 0 ≤
      (coneScoreatpercentile cum q).getD t 0 := by
  unfold coneScoreatpercentile
  rcases Nat.lt_or_ge t (npT cum).length with ht | ht
  · have htp : t < ((npT cum).map (fun c => scoreatpercentile c p)).length := by
      simpa using ht
    have htq : t < ((npT cum).map (fun c => scoreatpercentile c q)).length := by
      simpa using ht
    rw [List.getD_eq_getElem _ 0 htp, List.getD_eq_getElem _ 0 htq,
      List.getElem_map, List.getElem_map]
    exact scoreatpercentile_mono _ p q hp hpq hq
  · rw [List.getD_eq_default _ 0 (by simpa using ht),
      List.getD_eq_default _ 0 (by simpa using ht)]

/-- C7: for every simulated simple-return matrix and starting value, the
percentile bands returned by `compute_bayes_cone` are ordered at every time
step `t`: `perc[5][t] ≤ perc[25][t] ≤ perc[75][t] ≤ perc[95][t]`. -/
theorem compute_bayes_cone_band_ordering (preds : List (List ℚ)) (sv : ℚ)
    (t : ℕ) :
    (((compute_bayes_cone preds sv).lookup 5).getD []).getD t 0 ≤
      (((compute_bayes_cone preds sv).lookup 25).getD []).getD t 0 ∧
    (((compute_bayes_cone preds sv).lookup 25).getD []).getD t 0 ≤
      (((compute_bayes_cone preds sv).lookup 75).getD []).getD t 0 ∧
    (((compute_bayes_cone preds sv).lookup 75).getD []).getD t 0 ≤
      (((compute_bayes_cone preds sv).lookup 95).getD []).getD t 0 := by
  have h5 : (compute_bayes_cone preds sv).lookup 5 =
      some (coneScoreatpercentile
        ((np_cumprod1p preds).map (fun row => row.map (fun c => c * sv))) 5) := rfl
  have h25 : (compute_bayes_cone preds sv).lookup 25 =
      some (coneScoreatpercentile
        ((np_cumprod1p preds).map (fun row => row.map (fun c => c * sv))) 25) := rfl
  have h75 : (compute_bayes_cone preds sv).lookup 75 =
      some (coneScoreatpercentile
        ((np_cumprod1p preds).map (fun row => row.map (fun c => c * sv))) 75) := rfl
  have h95 : (compute_bayes_cone preds sv).lookup 95 =
      some (coneScoreatpercentile
        ((np_cumprod1p preds).map (fun row => row.map (fun c => c * sv))) 95) := rfl
  rw [h5, h25, h75, h95]
  simp only [Option.getD_some]
  exact ⟨coneScore_getD_mono _ 5 25 (by norm_num) (by norm_num) (by norm_num) t,
    coneScore_getD_mono _ 25 75 (by norm_num) (by norm_num) (by norm_num) t,
    coneScore_getD_mono _ 75 95 (by norm_num) (by norm_num) (by norm_num) t⟩

/-! ## C4: compute_bayes_cone against the specification's wording -/

/-- The specification's percentile method, stated from its words: sort the
sample into order statistics and linearly interpolate between the two order
statistics bracketing the position `p/100 * (n - 1)`. -/
def percentileLinearInterp (xs : List ℚ) (p : ℚ) : ℚ :=
  let orderStats := xs.insertionSort (· ≤ ·)
  let pos : ℚ := p / 100 * ((orderStats.length : ℚ) - 1)
  let k : ℕ := (⌊pos⌋).toNat
  let f : ℚ := pos - (k : ℚ)
  (1 - f) * orderStats.getD k 0 + f * orderStats.getD (k + 1) 0

/-- The cumulative value of one simulated path at forward step `t`, as the
spec words it: `cumprod(1 + r) * starting_value` at column `t`. -/
def specPathCum (row : List ℚ) (sv : ℚ) (t : ℕ) : ℚ :=
  ((row.take (t + 1)).map (fun r => r + 1)).prod * sv

/-- The cone value the spec describes at level `p` and time step `t`: the
p-th percentile, by linear interpolation between order statistics, of the S
values `cumprod(1+r) * starting_value` at column `t`, each column treated
independently. -/
def specConeValue (preds : List (List ℚ)) (sv : ℚ) (p : ℚ) (t : ℕ) : ℚ :=
  percentileLinearInterp (preds.map (fun row => specPathCum row sv t)) p

theorem scoreatpercentile_eq_linearInterp (a : List ℚ) (p : ℚ) :
    scoreatpercentile a p = percentileLinearInterp a p := by
  simp only [scoreatpercentile, percentileLinearInterp]
  ring

theorem npWidth_cum_scaled (preds : List (List ℚ)) (sv : ℚ) :
    npWidth ((np_cumprod1p preds).map (fun row => row.map (fun c => c * sv))) =
      npWidth preds := by
  cases preds with
  | nil => rfl
  | cons r rs => simp [npWidth, np_cumprod1p, length_cumprodAux]

theorem coneScoreatpercentile_eq_spec (preds : List (List ℚ)) (sv : ℚ) (p : ℚ)
    (hrect : Rect preds) :
    coneScoreatpercentile
        ((np_cumprod1p preds).map (fun row => row.map (fun c => c * sv))) p =
      (List.range (npWidth preds)).map (fun t => specConeValue preds sv p t) := by
  unfold coneScoreatpercentile npT
  rw [npWidth_cum_scaled, List.map_map]
  apply List.map_congr_left
  intro t ht
  have ht' : t < npWidth preds := List.mem_range.mp ht
  simp only [Function.comp]
  rw [specConeValue, ← scoreatpercentile_eq_linearInterp]
  congr 1
  simp only [np_cumprod1p, List.map_map]
  apply List.map_congr_left
  intro row hrow
  have hlen : t < row.length := by rw [hrect row hrow]; exact ht'
  show (cum_returns row sv).getD t 0 = specPathCum row sv t
  rw [getD_cum_returns row sv t hlen]
  rfl

/-- C4: for every S×T matrix of simulated simple returns and every starting
value, `compute_bayes_cone` returns the mapping sending each level
p ∈ {5, 25, 75, 95} to the length-T sequence whose value at step t is the
p-th percentile (linear interpolation between order statistics) of the S
values `cumprod(1+r) * starting_value` at column t, columns independent. -/
theorem compute_bayes_cone_matches_spec (preds : List (List ℚ)) (sv : ℚ)
    (hrect : Rect preds) :
    compute_bayes_cone preds sv =
      [5, 25, 75, 95].map (fun (p : ℕ) =>
        (p, (List.range (npWidth preds)).map
          (fun t => specConeValue preds sv (p : ℚ) t))) := by
  unfold compute_bayes_cone
  apply List.map_congr_left
  intro p _
  rw [coneScoreatpercentile_eq_spec preds sv (p : ℚ) hrect]

/-- Witness for C4 at a concrete 3×2 matrix and starting value 2. -/
theorem compute_bayes_cone_matches_spec_witness :
    Rect [[(0:ℚ), 1], [1, 0], [3, 1]] ∧
    compute_bayes_cone [[(0:ℚ), 1], [1, 0], [3, 1]] 2 =
      [5, 25, 75, 95].map (fun (p : ℕ) =>
        (p, (List.range (npWidth [[(0:ℚ), 1], [1, 0], [3, 1]])).map
          (fun t => specConeValue [[(0:ℚ), 1], [1, 0], [3, 1]] 2 (p : ℚ) t))) :=
  ⟨by decide, compute_bayes_cone_matches_spec _ _ (by decide)⟩

/-! ## Lemmas about the embedded list comprehension -/

theorem pyListComp_ok (f : ℕ → Except PyErr ℚ) (g : ℕ → ℚ) :
    ∀ l : List ℕ, (∀ i ∈ l, f i = .ok (g i)) →
      pyListComp f l = .ok (l.map g) := by
  intro l
  induction l with
  | nil => intro _; rfl
  | cons j js ih =>
    intro h
    have hj := h j (List.mem_cons_self j js)
    have hrest := ih (fun i hi => h i (List.mem_cons_of_mem j hi))
    simp [pyListComp, hj, hrest, bind, Except.bind, pure, Except.pure]

theorem pyListComp_error (f : ℕ → Except PyErr ℚ) (e : PyErr) :
    ∀ (l1 : List ℕ) (j : ℕ) (l2 : List ℕ),
      (∀ i ∈ l1, (f i).isOk = true) → f j = .error e →
      pyListComp f (l1 ++ j :: l2) = .error e := by
  intro l1
  induction l1 with
  | nil =>
    intro j l2 _ hj
    simp [pyListComp, hj, bind, Except.bind]
  | cons a as ih =>
    intro j l2 h hj
    have ha := h a (List.mem_cons_self a as)
    cases hfa : f a with
    | error e2 => rw [hfa] at ha; simp [Except.isOk, Except.toBool] at ha
    | ok v =>
      simp [pyListComp, hfa, bind, Except.bind,
        ih j l2 (fun i hi => h i (List.mem_cons_of_mem a hi)) hj]

theorem pyListComp_isOk (f : ℕ → Except PyErr ℚ) :
    ∀ l : List ℕ,
      (pyListComp f l).isOk = true ↔ ∀ i ∈ l, (f i).isOk = true := by
  intro l
  induction l with
  | nil => simp [pyListComp, Except.isOk, Except.toBool]
  | cons j js ih =>
    constructor
    · intro h
      cases hfj : f j with
      | error e =>
        simp [pyListComp, hfj, bind, Except.bind, Except.isOk, Except.toBool] at h
      | ok v =>
        intro i hi
        rcases List.mem_cons.mp hi with rfl | hmem
        · simp [hfj, Except.isOk, Except.toBool]
        · apply ih.mp _ i hmem
          rw [show pyListComp f (j :: js) =
            (pyListComp f js).bind (fun vs => pure (v :: vs)) from by
              simp [pyListComp, hfj, bind, Except.bind]] at h
          cases hr : pyListComp f js with
          | error e2 => rw [hr] at h; simp [Except.bind, Except.isOk, Except.toBool] at h
          | ok vs => simp [Except.isOk, Except.toBool]
    · intro h
      have hj := h j (List.mem_cons_self j js)
      cases hfj : f j with
      | error e => rw [hfj] at hj; simp [Except.isOk, Except.toBool] at hj
      | ok v =>
        have hrest := ih.mpr (fun i hi => h i (List.mem_cons_of_mem j hi))
        cases hr : pyListComp f js with
        | error e2 => rw [hr] at hrest; simp [Except.isOk, Except.toBool] at hrest
        | ok vs =>
          simp [pyListComp, hfj, hr, bind, Except.bind, pure, Except.pure,
            Except.isOk, Except.toBool]

theorem pyListComp_length (f : ℕ → Except PyErr ℚ) :
    ∀ (l : List ℕ) (q : List ℚ), pyListComp f l = .ok q → q.length = l.length := by
  intro l
  induction l with
  | nil => intro q h; simp [pyListComp] at h; simp [← h]
  | cons j js ih =>
    intro q h
    cases hfj : f j with
    | error e => rw [pyListComp, hfj] at h; simp [bind, Except.bind] at h
    | ok v =>
      rw [pyListComp, hfj] at h
      cases hr : pyListComp f js with
      | error e2 => rw [hr] at h; simp [bind, Except.bind] at h
      | ok vs =>
        rw [hr] at h
        simp [bind, Except.bind, pure, Except.pure] at h
        simp [← h, ih vs hr]

theorem pyListComp_mem (f : ℕ → Except PyErr ℚ) :
    ∀ (l : List ℕ) (q : List ℚ), pyListComp f l = .ok q →
      ∀ v ∈ q, ∃ i ∈ l, f i = .ok v := by
  intro l
  induction l with
  | nil =>
    intro q h v hv
    simp [pyListComp] at h
    rw [h] at hv
    simp at hv
  | cons j js ih =>
    intro q h v hv
    cases hfj : f j with
    | error e => rw [pyListComp, hfj] at h; simp [bind, Except.bind] at h
    | ok w =>
      rw [pyListComp, hfj] at h
      cases hr : pyListComp f js with
      | error e2 => rw [hr] at h; simp [bind, Except.bind] at h
      | ok vs =>
        rw [hr] at h
        simp [bind, Except.bind, pure, Except.pure] at h
        rw [← h] at hv
        rcases List.mem_cons.mp hv with rfl | hmem
        · exact ⟨j, List.mem_cons_self j js, hfj⟩
        · rcases ih vs hr v hmem with ⟨i, hi, hfi⟩
          exact ⟨i, List.mem_cons_of_mem j hi, hfi⟩

theorem npWidth_cumprod (preds : List (List ℚ)) :
    npWidth (np_cumprod1p preds) = npWidth preds := by
  cases preds with
  | nil => rfl
  | cons r rs => simp [npWidth, np_cumprod1p, length_cumprodAux]

theorem range_split_at (w n : ℕ) (h : w < n) :
    List.range n = List.range w ++ w :: List.range' (w + 1) (n - w - 1) := by
  rw [List.range_eq_range', List.range_eq_range']
  have h1 : List.range' 0 w 1 ++ List.range' (0 + 1 * w) (n - w) 1 =
      List.range' 0 (n - w + w) 1 := List.range'_append 0 w (n - w) 1
  have h2 : n - w + w = n := by omega
  have h3 : n - w = (n - w - 1) + 1 := by omega
  rw [h2] at h1
  rw [← h1, h3, List.range'_succ]
  simp

/-! ## C10: totality of compute_consistency_score -/

/-- C10: `compute_consistency_score` reads column `i` of the simulated matrix
for every index of the realized series, so it is total exactly when the
matrix has at least as many columns as the series has entries; a realized
series strictly longer than the simulated horizon fails with an
out-of-bounds access at the first missing column. -/
theorem compute_consistency_score_total_iff (returns_test : List ℚ)
    (preds : List (List ℚ)) (_hrect : Rect preds) (_hne : preds ≠ []) :
    ((compute_consistency_score returns_test preds).isOk = true ↔
      returns_test.length ≤ npWidth preds) ∧
    (npWidth preds < returns_test.length →
      compute_consistency_score returns_test preds =
        .error (.indexError (npWidth preds))) := by
  have hw : npWidth (np_cumprod1p preds) = npWidth preds := npWidth_cumprod preds
  have hlcum : (cum_returns returns_test 1).length = returns_test.length :=
    length_cum_returns _ _
  have h1 : compute_consistency_score returns_test preds =
      (pyListComp
          (fun i => (npColumn (np_cumprod1p preds) i).bind
            (fun col => Except.ok (percentileofscore_weak col
              ((cum_returns returns_test 1).getD i 0))))
          (List.range (cum_returns returns_test 1).length)).bind
        (fun q => Except.ok (100 - |50 - npMean q| / (0.5 : ℚ))) := rfl
  set f : ℕ → Except PyErr ℚ := fun i =>
    (npColumn (np_cumprod1p preds) i).bind
      (fun col => Except.ok (percentileofscore_weak col
        ((cum_returns returns_test 1).getD i 0))) with hfdef
  have hfok : ∀ i, i < npWidth preds →
      f i = .ok (percentileofscore_weak
        ((np_cumprod1p preds).map (fun row => row.getD i 0))
        ((cum_returns returns_test 1).getD i 0)) := by
    intro i hi
    simp [hfdef, npColumn, hw, hi, Except.bind]
  have hferr : ∀ i, ¬ i < npWidth preds → f i = .error (.indexError i) := by
    intro i hi
    simp [hfdef, npColumn, hw, hi, Except.bind]
  have herr : npWidth preds < returns_test.length →
      compute_consistency_score returns_test preds =
        .error (.indexError (npWidth preds)) := by
    intro hlt
    rw [h1, hlcum, range_split_at (npWidth preds) returns_test.length hlt,
      pyListComp_error f (.indexError (npWidth preds)) (List.range (npWidth preds))
        (npWidth preds) (List.range' (npWidth preds + 1) (returns_test.length - npWidth preds - 1))
        (fun i hi => by rw [hfok i (List.mem_range.mp hi)]; rfl)
        (hferr (npWidth preds) (lt_irrefl _))]
    rfl
  refine ⟨⟨?_, ?_⟩, herr⟩
  · intro hok
    by_contra hcon
    rw [herr (by omega)] at hok
    simp [Except.isOk, Except.toBool] at hok
  · intro hlen
    rw [h1, hlcum,
      pyListComp_ok f
        (fun i => percentileofscore_weak
          ((np_cumprod1p preds).map (fun row => row.getD i 0))
          ((cum_returns returns_test 1).getD i 0))
        (List.range returns_test.length)
        (fun i hi => hfok i (lt_of_lt_of_le (List.mem_range.mp hi) hlen))]
    rfl

/-- Witness for C10: a 1×2 matrix with a length-3 realized series is out of
bounds at column 2; a short series is in bounds. -/
theorem compute_consistency_score_total_iff_witness :
    (((compute_consistency_score [(1:ℚ), 2, 3] [[(0:ℚ), 1]]).isOk = true ↔
       ([(1:ℚ), 2, 3]).length ≤ npWidth [[(0:ℚ), 1]]) ∧
     (npWidth [[(0:ℚ), 1]] < ([(1:ℚ), 2, 3]).length →
       compute_consistency_score [(1:ℚ), 2, 3] [[(0:ℚ), 1]] =
         .error (.indexError (npWidth [[(0:ℚ), 1]])))) :=
  compute_consistency_score_total_iff _ _ (by decide) (by decide)

/-! ## C5: compute_consistency_score against the specification's formula -/

/-- The realized cumulative value at step `i`, anchored at 1.0, per the
spec's words. -/
def specRealizedCum (returns_test : List ℚ) (i : ℕ) : ℚ :=
  ((returns_test.take (i + 1)).map (fun r => r + 1)).prod

/-- The weak percentile rank the spec describes at step `i`: 100 times the
fraction of simulated cumulative paths ≤ the realized cumulative value, ties
counted in favor of the realized value. -/
def specWeakRank (returns_test : List ℚ) (preds : List (List ℚ)) (i : ℕ) : ℚ :=
  100 * (((preds.countP (fun row =>
      decide (specPathCum row 1 i ≤ specRealizedCum returns_test i))) : ℚ) /
    (preds.length : ℚ))

/-- The consistency score as the spec's formula states it:
`100 - |50 - m| / 0.5` with `m` the mean over time steps of the per-step weak
percentile ranks. -/
def specConsistencyScore (returns_test : List ℚ) (preds : List (List ℚ)) : ℚ :=
  100 - |50 - npMean ((List.range returns_test.length).map
    (fun i => specWeakRank returns_test preds i))| / (0.5 : ℚ)

theorem percentileofscore_weak_column_eq (returns_test : List ℚ)
    (preds : List (List ℚ)) (hrect : Rect preds) (i : ℕ)
    (hi : i < returns_test.length) (hiw : i < npWidth preds) :
    percentileofscore_weak ((np_cumprod1p preds).map (fun row => row.getD i 0))
        ((cum_returns returns_test 1).getD i 0) =
      specWeakRank returns_test preds i := by
  unfold percentileofscore_weak specWeakRank
  have hreal : (cum_returns returns_test 1).getD i 0 = specRealizedCum returns_test i := by
    rw [getD_cum_returns returns_test 1 i hi, specRealizedCum, mul_one]
  have hcount : ((np_cumprod1p preds).map (fun row => row.getD i 0)).countP
      (fun x => decide (x ≤ (cum_returns returns_test 1).getD i 0)) =
      preds.countP (fun row =>
        decide (specPathCum row 1 i ≤ specRealizedCum returns_test i)) := by
    rw [np_cumprod1p, List.map_map, List.countP_map]
    apply List.countP_congr
    intro row hrow
    have hlen : i < row.length := by rw [hrect row hrow]; exact hiw
    have hmap : i < (row.map (fun r => r + 1)).length := by simpa using hlen
    have hpath : (cumprodAux 1 (row.map (fun r => r + 1))).getD i 0 =
        specPathCum row 1 i := by
      rw [getD_cumprodAux 1 _ i hmap, specPathCum, ← List.map_take, one_mul, mul_one]
    simp only [Function.comp_apply, decide_eq_true_eq]
    rw [hpath, hreal]
  have hlenmap : ((np_cumprod1p preds).map (fun row => row.getD i 0)).length =
      preds.length := by simp [np_cumprod1p]
  rw [hcount, hlenmap]
  ring

/-- C5: the consistency score equals `100 - |50 - m| / 0.5`, where `m` is the
mean over time steps of the weak percentile rank of the realized cumulative
path (anchored at 1.0) within that step's simulated cumulative distribution. -/
theorem compute_consistency_score_matches_spec (returns_test : List ℚ)
    (preds : List (List ℚ)) (hrect : Rect preds)
    (hlen : returns_test.length ≤ npWidth preds) :
    compute_consistency_score returns_test preds =
      .ok (specConsistencyScore returns_test preds) := by
  have hw : npWidth (np_cumprod1p preds) = npWidth preds := npWidth_cumprod preds
  have hlcum : (cum_returns returns_test 1).length = returns_test.length :=
    length_cum_returns _ _
  have h1 : compute_consistency_score returns_test preds =
      (pyListComp
          (fun i => (npColumn (np_cumprod1p preds) i).bind
            (fun col => Except.ok (percentileofscore_weak col
              ((cum_returns returns_test 1).getD i 0))))
          (List.range (cum_returns returns_test 1).length)).bind
        (fun q => Except.ok (100 - |50 - npMean q| / (0.5 : ℚ))) := rfl
  rw [h1, hlcum,
    pyListComp_ok _ (fun i => specWeakRank returns_test preds i)
      (List.range returns_test.length)
      (fun i hi => by
        have hi' : i < returns_test.length := List.mem_range.mp hi
        have hiw : i < npWidth preds := lt_of_lt_of_le hi' hlen
        have hcol : npColumn (np_cumprod1p preds) i =
            .ok ((np_cumprod1p preds).map (fun row => row.getD i 0)) := by
          simp [npColumn, hw, hiw]
        rw [hcol]
        show Except.ok (percentileofscore_weak
          ((np_cumprod1p preds).map (fun row => row.getD i 0))
          ((cum_returns returns_test 1).getD i 0)) = _
        rw [percentileofscore_weak_column_eq returns_test preds hrect i hi' hiw])]
  rfl

/-- Witness for C5 at a concrete realized series and 3×2 matrix. -/
theorem compute_consistency_score_matches_spec_witness :
    compute_consistency_score [(1:ℚ), 0] [[(0:ℚ), 1], [1, 0], [3, 1]] =
      .ok (specConsistencyScore [(1:ℚ), 0] [[(0:ℚ), 1], [1, 0], [3, 1]]) :=
  compute_consistency_score_matches_spec _ _ (by decide) (by decide)

/-! ## C6: bounds of the consistency score, and the median-line case -/

theorem percentileofscore_weak_bounds (a : List ℚ) (x : ℚ) :
    0 ≤ percentileofscore_weak a x ∧ percentileofscore_weak a x ≤ 100 := by
  unfold percentileofscore_weak
  rcases eq_or_ne a.length 0 with h0 | hne
  · simp [h0]
  · have hl : 0 < (a.length : ℚ) := by
      have := Nat.pos_of_ne_zero hne
      exact_mod_cast this
    have hc0 : (0 : ℚ) ≤ (a.countP (fun v => decide (v ≤ x)) : ℚ) := by positivity
    have hc : (a.countP (fun v => decide (v ≤ x)) : ℚ) ≤ (a.length : ℚ) := by
      exact_mod_cast List.countP_le_length _
    constructor
    · positivity
    · have h1 : (a.countP (fun v => decide (v ≤ x)) : ℚ) / (a.length : ℚ) ≤ 1 :=
        (div_le_one hl).mpr hc
      nlinarith

theorem sum_map_const_rat (l : List ℕ) (c : ℚ) :
    (l.map (fun _ => c)).sum = (l.length : ℚ) * c := by
  induction l with
  | nil => simp
  | cons a as ih => simp [ih]; ring

theorem npMean_bounds (q : List ℚ) (hne : q ≠ [])
    (h : ∀ v ∈ q, 0 ≤ v ∧ v ≤ 100) : 0 ≤ npMean q ∧ npMean q ≤ 100 := by
  have hlen : 0 < (q.length : ℚ) := by
    have := List.length_pos.mpr hne
    exact_mod_cast this
  have hsum0 : 0 ≤ q.sum := List.sum_nonneg (fun v hv => (h v hv).1)
  have hsum1 : q.sum ≤ (q.length : ℚ) * 100 := by
    have := List.sum_le_card_nsmul q 100 (fun v hv => (h v hv).2)
    simpa [nsmul_eq_mul] using this
  constructor
  · exact div_nonneg hsum0 (le_of_lt hlen)
  · rw [npMean, div_le_iff₀ hlen]
    linarith

/-- The count behind the weak percentile rank at step `i`: how many simulated
cumulative paths lie weakly below the realized cumulative value. -/
def stepWeakCount (returns_test : List ℚ) (preds : List (List ℚ)) (i : ℕ) : ℕ :=
  ((np_cumprod1p preds).map (fun row => row.getD i 0)).countP
    (fun x => decide (x ≤ (cum_returns returns_test 1).getD i 0))

/-- C6 (amended): on a non-empty realized series every returned score lies in
[0, 100]; and whenever at every step exactly half of the simulated paths lie
weakly below the realized value, the score is exactly 100.  This balanced
case is a sufficient condition, not a characterization (only the mean of the
per-step ranks must be 50); it covers the per-step median with an even
number of simulated paths and distinct middle order statistics, but not the
median with an odd number of paths, where the weak tie-favoring rank
exceeds 50 — see the counterexample. -/
theorem compute_consistency_score_bounds (returns_test : List ℚ)
    (preds : List (List ℚ)) :
    (∀ s : ℚ, returns_test ≠ [] →
        compute_consistency_score returns_test preds = .ok s →
        0 ≤ s ∧ s ≤ 100) ∧
    (returns_test ≠ [] → preds ≠ [] → returns_test.length ≤ npWidth preds →
      (∀ i, i < returns_test.length →
        2 * stepWeakCount returns_test preds i = preds.length) →
      compute_consistency_score returns_test preds = .ok 100) := by
  have hw : npWidth (np_cumprod1p preds) = npWidth preds := npWidth_cumprod preds
  have hlcum : (cum_returns returns_test 1).length = returns_test.length :=
    length_cum_returns _ _
  set f : ℕ → Except PyErr ℚ := fun i =>
    (npColumn (np_cumprod1p preds) i).bind
      (fun col => Except.ok (percentileofscore_weak col
        ((cum_returns returns_test 1).getD i 0))) with hfdef
  have h1 : compute_consistency_score returns_test preds =
      (pyListComp f (List.range (cum_returns returns_test 1).length)).bind
        (fun q => Except.ok (100 - |50 - npMean q| / (0.5 : ℚ))) := rfl
  have habs : ∀ x : ℚ, x / (0.5 : ℚ) = 2 * x := by
    intro x
    rw [show (0.5 : ℚ) = 1 / 2 from by norm_num]
    ring
  constructor
  · intro s hne hok
    rw [h1] at hok
    cases hr : pyListComp f (List.range (cum_returns returns_test 1).length) with
    | error e => rw [hr] at hok; simp [Except.bind] at hok
    | ok q =>
      rw [hr] at hok
      simp only [Except.bind, Except.ok.injEq] at hok
      have hq : ∀ v ∈ q, 0 ≤ v ∧ v ≤ 100 := by
        intro v hv
        rcases pyListComp_mem f _ q hr v hv with ⟨i, _, hfi⟩
        by_cases hiw : i < npWidth (np_cumprod1p preds)
        · rw [hfdef] at hfi
          simp only [npColumn, if_pos hiw, Except.bind, Except.ok.injEq] at hfi
          rw [← hfi]
          exact percentileofscore_weak_bounds _ _
        · rw [hfdef] at hfi
          simp [npColumn, if_neg hiw, Except.bind] at hfi
      have hqne : q ≠ [] := by
        have hlq := pyListComp_length f _ q hr
        intro hcon
        rw [hcon] at hlq
        simp [hlcum] at hlq
        exact hne (List.length_eq_zero.mp hlq.symm)
      have hm := npMean_bounds q hqne hq
      have habs1 : |50 - npMean q| ≤ 50 := abs_le.mpr ⟨by linarith [hm.1, hm.2], by linarith [hm.1, hm.2]⟩
      have habs0 : 0 ≤ |50 - npMean q| := abs_nonneg _
      rw [← hok, habs]
      constructor <;> linarith
  · intro hne hneS hlen hcount
    have hS0 : (preds.length : ℚ) ≠ 0 := by
      have := List.length_pos.mpr hneS
      positivity
    rw [h1, hlcum, pyListComp_ok f (fun _ => (50 : ℚ)) (List.range returns_test.length)
      (fun i hi => by
        have hi' : i < returns_test.length := List.mem_range.mp hi
        have hiw : i < npWidth (np_cumprod1p preds) :=
          lt_of_lt_of_le hi' (hw ▸ hlen)
        rw [hfdef]
        simp only [npColumn, if_pos hiw, Except.bind, Except.ok.injEq]
        have hcnt := hcount i hi'
        rw [percentileofscore_weak]
        have hcol : ((np_cumprod1p preds).map (fun row => row.getD i 0)).countP
            (fun x => decide (x ≤ (cum_returns returns_test 1).getD i 0)) =
            stepWeakCount returns_test preds i := rfl
        have hcollen : ((np_cumprod1p preds).map (fun row => row.getD i 0)).length =
            preds.length := by simp [np_cumprod1p]
        rw [hcol, hcollen]
        have hcast : (preds.length : ℚ) = 2 * (stepWeakCount returns_test preds i : ℚ) := by
          exact_mod_cast hcnt.symm
        rw [hcast]
        have hc0 : (stepWeakCount returns_test preds i : ℚ) ≠ 0 := by
          intro hz
          rw [hz, mul_zero] at hcast
          exact hS0 (by rw [hcast])
        field_simp
        ring)]
    simp only [Except.bind]
    have hlen0 : ((returns_test.length : ℕ) : ℚ) ≠ 0 := by
      have := List.length_pos.mpr hne
      positivity
    rw [npMean, sum_map_const_rat]
    simp only [List.length_map, List.length_range]
    rw [mul_div_cancel_left₀ (50 : ℚ) hlen0]
    simp

/-- The per-step median line of the simulated cumulative paths: the 50th
percentile (linear interpolation between order statistics — the standard
median) of the simulated cumulative values at step `i`. -/
def perStepMedian (preds : List (List ℚ)) (i : ℕ) : ℚ :=
  scoreatpercentile ((np_cumprod1p preds).map (fun row => row.getD i 0)) 50

/-- C6 counterexample: with three simulated paths whose cumulative values at
the single step are 1, 2 and 4, the realized path [1] lies exactly on the
per-step median line (cumulative value 2), yet the score is 200/3, not 100:
the weak rank counts the tie in favor of the realized value, giving 2/3
instead of 1/2. -/
theorem consistency_score_median_counterexample :
    cum_returns [(1 : ℚ)] 1 = [perStepMedian [[(0 : ℚ)], [(1 : ℚ)], [(3 : ℚ)]] 0] ∧
    compute_consistency_score [(1 : ℚ)] [[(0 : ℚ)], [(1 : ℚ)], [(3 : ℚ)]] =
      .ok (200 / 3) ∧
    (200 / 3 : ℚ) ≠ 100 := by
  refine ⟨?_, ?_, by norm_num⟩
  · norm_num [cum_returns, cumprodAux, perStepMedian, np_cumprod1p,
      scoreatpercentile, List.insertionSort, List.orderedInsert]
  · norm_num [compute_consistency_score, cum_returns, cumprodAux, np_cumprod1p,
      pyListComp, npColumn, npWidth, percentileofscore_weak, npMean,
      List.countP, List.countP.go, bind, Except.bind, pure, Except.pure]
    rw [abs_of_nonneg (by norm_num : (0 : ℚ) ≤ 50 / 3)]
    norm_num

/-- Witness for C6: a two-path ensemble with the realized value strictly
between the two cumulative values has balanced weak counts, and the score is
exactly 100 and inside the bounds. -/
theorem compute_consistency_score_bounds_witness :
    (0 ≤ (100 : ℚ) ∧ (100 : ℚ) ≤ 100) ∧
    compute_consistency_score [(1 : ℚ)] [[(0 : ℚ)], [(2 : ℚ)]] = .ok 100 := by
  have h2 := (compute_consistency_score_bounds [(1 : ℚ)] [[(0 : ℚ)], [(2 : ℚ)]]).2
    (by decide) (by decide) (by decide)
    (fun i hi => by
      have h0 : i = 0 := by simp only [List.length_cons, List.length_nil] at hi; omega
      subst h0
      norm_num [stepWeakCount, np_cumprod1p, cumprodAux, cum_returns,
        List.countP, List.countP.go])
  exact ⟨(compute_consistency_score_bounds [(1 : ℚ)] [[(0 : ℚ)], [(2 : ℚ)]]).1
    100 (by decide) h2, h2⟩

/-! ## C8: unknown model names -/

/-- C8: for every model name outside {alpha_beta, t, normal, best},
`run_model` raises `NotImplementedError` whose message names the valid set,
and the four singleton instances are untouched — no model building and no
sampling happens. -/
theorem run_model_unknown_name (model : String) (returns_train : List ℚ)
    (returns_test : Option (List ℚ)) (bmark : Option (List ℚ)) (samples : ℕ)
    (st : Models)
    (h : model ∉ (["alpha_beta", "t", "normal", "best"] : List String)) :
    run_model model returns_train returns_test bmark samples st =
      (st, .error (.notImplementedError
        ("Model " ++ model ++ " not found.Use alpha_beta, t, normal, or best."))) := by
  simp only [List.mem_cons, List.not_mem_nil, or_false, not_or] at h
  obtain ⟨h1, h2, h3, h4⟩ := h
  simp [run_model, h1, h2, h3, h4]

/-- Witness for C8 at the spec's own example, the unknown name "foo". -/
theorem run_model_unknown_name_witness :
    "foo" ∉ (["alpha_beta", "t", "normal", "best"] : List String) ∧
    run_model "foo" [(1 : ℚ)] none none 500 pyfolioModels =
      (pyfolioModels, .error (.notImplementedError
        ("Model " ++ "foo" ++ " not found.Use alpha_beta, t, normal, or best."))) :=
  ⟨by decide, run_model_unknown_name "foo" [(1 : ℚ)] none none 500 pyfolioModels
    (by decide)⟩

/-! ## C1: the samples argument of run_model never reaches the sampler -/

/-- C1 evaluated at the failing input: `run_model('t', [0.01, 0.02],
samples=500)` reaches inference and returns a trace carrying 2000 draws —
the class default of the `returns_t` singleton — not the 500 requested,
because the dispatch site drops the `samples` argument. -/
theorem run_model_samples_dropped :
    ((run_model "t" [(1/100 : ℚ), 2/100] none none 500 pyfolioModels).2.toOption.map
        Trace.draws) = some 2000 ∧ (2000 : ℕ) ≠ 500 :=
  ⟨rfl, by decide⟩

/-! ## C3: the unbound name in the alpha-beta builder -/

theorem run_fails_of_builder_error
    (builder : List (String × Obs) → Except PyErr ModelSpec)
    (inputs : List (String × Obs)) (self : BayesianModel) (e : PyErr)
    (hnone : self.cached_model = none)
    (hb : builder (_create_shared_vars inputs) = .error e) :
    self.run builder inputs =
      ({ self with shared_vars := _create_shared_vars inputs }, .error e) := by
  unfold BayesianModel.run BayesianModel.cache_model
  rw [hnone]
  simp [hb]

/-- C3: `ReturnsAlphaBeta.create_model` evaluates the unbound name
`data_no_missing` on every pair of inputs, raising `NameError` before any
ModelSpec is produced; hence every first call of `run_model` with
model='alpha_beta' (the singleton still has no cached model) fails with that
`NameError`. -/
theorem alpha_beta_data_no_missing_undefined :
    (∀ kwargs : List (String × Obs),
      ReturnsAlphaBeta.create_model kwargs = .error (.nameError "data_no_missing")) ∧
    (∀ (returns_train : List ℚ) (returns_test bmark : Option (List ℚ))
        (samples : ℕ) (st : Models),
      st.returns_alpha_beta.cached_model = none →
      (run_model "alpha_beta" returns_train returns_test bmark samples st).2 =
        .error (.nameError "data_no_missing")) := by
  have hc : ∀ kwargs : List (String × Obs),
      ReturnsAlphaBeta.create_model kwargs =
        .error (.nameError "data_no_missing") := fun kwargs => rfl
  refine ⟨hc, ?_⟩
  intro returns_train returns_test bmark samples st hnone
  have hrun := run_fails_of_builder_error ReturnsAlphaBeta.create_model
    [("data", returns_train.map some), ("bmark", npAsArrayOpt bmark)]
    st.returns_alpha_beta (.nameError "data_no_missing") hnone
    (hc _)
  simp [run_model, hrun]

/-- Witness for C3: the first alpha-beta call on the freshly imported module
state fails with the NameError. -/
theorem alpha_beta_data_no_missing_undefined_witness :
    ReturnsAlphaBeta.create_model [("data", [some (1:ℚ)]), ("bmark", [some (2:ℚ)])] =
      .error (.nameError "data_no_missing") ∧
    (run_model "alpha_beta" [(1:ℚ)] none (some [(2:ℚ)]) 500 pyfolioModels).2 =
      .error (.nameError "data_no_missing") :=
  ⟨alpha_beta_data_no_missing_undefined.1 _,
   alpha_beta_data_no_missing_undefined.2 [(1:ℚ)] none (some [(2:ℚ)]) 500
     pyfolioModels rfl⟩

/-! ## C9: build-once, rebind-always -/

theorem assocSet_lookup_self (l : List (String × Obs)) (k : String) (v : Obs)
    (h : (l.lookup k).isSome = true) : (assocSet l k v).lookup k = some v := by
  induction l with
  | nil => simp [List.lookup] at h
  | cons p ps ih =>
    by_cases hk : p.1 = k
    · simp only [assocSet, List.map_cons, if_pos hk]
      simp [List.lookup]
    · have hk2 : (k == p.1) = false := by
        simp only [beq_eq_false_iff_ne, ne_eq]
        exact fun hcon => hk hcon.symm
      rw [List.lookup, hk2] at h
      simp only [assocSet, List.map_cons, if_neg hk]
      rw [List.lookup, hk2]
      exact ih h

theorem assocSet_lookup_other (l : List (String × Obs)) (k : String) (v : Obs)
    (n : String) (hn : n ≠ k) : (assocSet l k v).lookup n = l.lookup n := by
  induction l with
  | nil => rfl
  | cons p ps ih =>
    by_cases hk : p.1 = k
    · have hnp : (n == k) = false := by simp [hn]
      simp only [assocSet, List.map_cons, if_pos hk]
      rw [List.lookup, hnp, List.lookup, show (n == p.1) = false from by simp [hk, hn]]
      exact ih
    · simp only [assocSet, List.map_cons, if_neg hk]
      rw [List.lookup, List.lookup]
      cases hnp : n == p.1 with
      | true => rfl
      | false => exact ih

theorem lookup_isSome_of_mem_fst (l : List (String × Obs)) (n : String)
    (h : n ∈ l.map Prod.fst) : (l.lookup n).isSome = true := by
  induction l with
  | nil => simp at h
  | cons p ps ih =>
    rw [List.lookup]
    cases hnp : n == p.1 with
    | true => rfl
    | false =>
      apply ih
      rcases List.mem_cons.mp h with heq | hmem
      · exfalso
        rw [heq] at hnp
        simp at hnp
      · exact hmem

theorem setSharedValues_ok :
    ∀ (inputs shared : List (String × Obs)),
      (∀ n ∈ inputs.map Prod.fst, (shared.lookup n).isSome = true) →
      (inputs.map Prod.fst).Nodup →
      (setSharedValues shared inputs).2 = .ok () ∧
      (∀ n a, (n, a) ∈ inputs →
        (setSharedValues shared inputs).1.lookup n = some a) ∧
      (∀ n, n ∉ inputs.map Prod.fst →
        (setSharedValues shared inputs).1.lookup n = shared.lookup n) := by
  intro inputs
  induction inputs with
  | nil =>
    intro shared _ _
    exact ⟨rfl, by simp, fun n _ => rfl⟩
  | cons p ps ih =>
    intro shared hkeys hnodup
    obtain ⟨k, v⟩ := p
    have hk : (shared.lookup k).isSome = true := hkeys k (by simp)
    have hstep : setSharedValues shared ((k, v) :: ps) =
        setSharedValues (assocSet shared k v) ps := by
      simp [setSharedValues, hk]
    have hkeys2 : ∀ n ∈ ps.map Prod.fst,
        ((assocSet shared k v).lookup n).isSome = true := by
      intro n hn
      by_cases hnk : n = k
      · subst hnk
        rw [assocSet_lookup_self shared n v hk]
        rfl
      · rw [assocSet_lookup_other shared k v n hnk]
        exact hkeys n (by simp [hn])
    have hnodup2 : (ps.map Prod.fst).Nodup := (List.nodup_cons.mp (by simpa using hnodup)).2
    have hknotin : k ∉ ps.map Prod.fst := (List.nodup_cons.mp (by simpa using hnodup)).1
    obtain ⟨hok, hmem, hother⟩ := ih (assocSet shared k v) hkeys2 hnodup2
    refine ⟨by rw [hstep]; exact hok, ?_, ?_⟩
    · intro n a hna
      rcases List.mem_cons.mp hna with heq | hmemtail
      · obtain ⟨hn, ha⟩ := Prod.mk.injEq .. ▸ heq
        subst hn; subst ha
        rw [hstep, hother n hknotin, assocSet_lookup_self shared n a hk]
      · rw [hstep]
        exact hmem n a hmemtail
    · intro n hn
      have hn1 : n ≠ k := by
        intro hcon
        exact hn (by simp [hcon])
      have hn2 : n ∉ ps.map Prod.fst := by
        intro hcon
        exact hn (by simp [hcon])
      rw [hstep, hother n hn2, assocSet_lookup_other shared k v n hn1]

/-- C9: the model is built at most once.  The first `run` on an instance with
no cached model builds the ModelSpec from the inputs and caches it, while
rebinding every SharedVariable to the supplied array; a later `run` on an
instance with a cached ModelSpec consults the builder not at all (the result
is the same for any two builders), leaves the cached ModelSpec unchanged,
and still rebinds every SharedVariable to the newly supplied array. -/
theorem bayesianModel_build_once :
    (∀ (builder : List (String × Obs) → Except PyErr ModelSpec)
        (inputs : List (String × Obs)) (self : BayesianModel) (m : ModelSpec),
      self.cached_model = none →
      builder (_create_shared_vars inputs) = .ok m →
      (inputs.map Prod.fst).Nodup →
      ((self.run builder inputs).1.cached_model = some m ∧
       ∀ n a, (n, a) ∈ inputs →
         (self.run builder inputs).1.shared_vars.lookup n = some a)) ∧
    (∀ (builder builder' : List (String × Obs) → Except PyErr ModelSpec)
        (inputs : List (String × Obs)) (self : BayesianModel) (m : ModelSpec),
      self.cached_model = some m →
      (self.run builder inputs = self.run builder' inputs ∧
       (self.run builder inputs).1.cached_model = some m ∧
       ((∀ n ∈ inputs.map Prod.fst, (self.shared_vars.lookup n).isSome = true) →
        (inputs.map Prod.fst).Nodup →
        ∀ n a, (n, a) ∈ inputs →
          (self.run builder inputs).1.shared_vars.lookup n = some a))) := by
  constructor
  · intro builder inputs self m hnone hb hnodup
    have hkeys : ∀ n ∈ inputs.map Prod.fst,
        ((_create_shared_vars inputs).lookup n).isSome = true := by
      intro n hn
      exact lookup_isSome_of_mem_fst _ n hn
    obtain ⟨hok, hmem, _⟩ := setSharedValues_ok inputs (_create_shared_vars inputs)
      hkeys hnodup
    have hrun : self.run builder inputs =
        ({ self with
            shared_vars := (setSharedValues (_create_shared_vars inputs) inputs).1,
            cached_model := some m },
          ({ self with
              shared_vars := (setSharedValues (_create_shared_vars inputs) inputs).1,
              cached_model := some m } : BayesianModel)._inference) := by
      unfold BayesianModel.run BayesianModel.cache_model
      rw [hnone]
      simp only [Option.isNone_none, if_true, hb]
      cases hsv : setSharedValues (_create_shared_vars inputs) inputs with
      | mk shared res =>
        cases res with
        | error e => rw [hsv] at hok; simp at hok
        | ok u => cases u; simp
    rw [hrun]
    exact ⟨rfl, fun n a hna => hmem n a hna⟩
  · intro builder builder' inputs self m hcached
    have hrun : ∀ b : List (String × Obs) → Except PyErr ModelSpec,
        self.run b inputs =
          (match setSharedValues self.shared_vars inputs with
           | (shared, .error e) => ({ self with shared_vars := shared }, .error e)
           | (shared, .ok ()) =>
             ({ self with shared_vars := shared },
              ({ self with shared_vars := shared } : BayesianModel)._inference)) := by
      intro b
      unfold BayesianModel.run
      rw [show self.cached_model.isNone = false from by rw [hcached]; rfl]
      rfl
    refine ⟨by rw [hrun builder, hrun builder'], ?_, ?_⟩
    · rw [hrun builder]
      cases hsv : setSharedValues self.shared_vars inputs with
      | mk shared res =>
        cases res with
        | error e => exact hcached
        | ok u => cases u; exact hcached
    · intro hkeys hnodup n a hna
      obtain ⟨hok, hmem, _⟩ := setSharedValues_ok inputs self.shared_vars hkeys hnodup
      rw [hrun builder]
      cases hsv : setSharedValues self.shared_vars inputs with
      | mk shared res =>
        cases res with
        | error e => rw [hsv] at hok; simp at hok
        | ok u =>
          cases u
          have hval := hmem n a hna
          rw [hsv] at hval
          simpa using hval

/-- Witness for C9: a first call on a fresh instance caches the Student-T
spec; a second call on the resulting instance gives the same outcome whether
dispatched with the T builder or the normal builder — the builder is not
consulted again. -/
theorem bayesianModel_build_once_witness :
    ((pyfolioFreshModel.run ReturnsT.create_model
        [("data", [some (1:ℚ)])]).1.cached_model =
      some { params := ["mean returns", "volatility", "nu_minus_two"],
             deterministics := ["annual volatility", "sharpe"],
             observed := ["returns"] }) ∧
    ((pyfolioFreshModel.run ReturnsT.create_model [("data", [some (1:ℚ)])]).1.run
        ReturnsT.create_model [("data", [some (2:ℚ)])] =
      (pyfolioFreshModel.run ReturnsT.create_model [("data", [some (1:ℚ)])]).1.run
        ReturnsNormal.create_model [("data", [some (2:ℚ)])]) := by
  have h1 := bayesianModel_build_once.1 ReturnsT.create_model
    [("data", [some (1:ℚ)])] pyfolioFreshModel
    { params := ["mean returns", "volatility", "nu_minus_two"],
      deterministics := ["annual volatility", "sharpe"],
      observed := ["returns"] } rfl rfl (by decide)
  have h2 := bayesianModel_build_once.2 ReturnsT.create_model
    ReturnsNormal.create_model [("data", [some (2:ℚ)])]
    (pyfolioFreshModel.run ReturnsT.create_model [("data", [some (1:ℚ)])]).1
    { params := ["mean returns", "volatility", "nu_minus_two"],
      deterministics := ["annual volatility", "sharpe"],
      observed := ["returns"] } h1.1
  exact ⟨h1.1, h2.1⟩

/-! ## The plotting layer (C2)

The rendering itself (plt.gca, Series.plot, fill_between, legend, titles,
ax.text, set_ylabel) is an external matplotlib collaborator; the embedding
abstracts its outcome as an explicit `render : Except PyErr Unit` argument.
The numeric steps of `_plot_bayes_cone` and the absence of any exception
handling around the rendering are taken from the source. -/

/-- Embedding of `series.iloc[-1]`: the last element; `IndexError` on an empty series. -/
def ilocLast (xs : List ℚ) : Except PyErr ℚ :=
  match xs.getLast? with
  | some v => .ok v
  | none => .error (.indexError (-1))

/-- Embedding of `series.iloc[0]` (and `index[0]`): the first element; `IndexError` on an
empty series. -/
def ilocFirst (xs : List ℚ) : Except PyErr ℚ :=
  match xs.head? with
  | some v => .ok v
  | none => .error (.indexError 0)

/-- Embedding of the band reindexing dict comprehension over pd.Series(v, index=returns_test.index) for each band v of perc:
pandas raises `ValueError` unless each band has one value per test date. -/
def seriesReindexAll (perc : List (ℕ × List ℚ)) (idxLen : ℕ) :
    Except PyErr Unit :=
  if perc.all (fun kv => kv.2.length = idxLen) then .ok ()
  else .error (.valueError "Length of values does not match length of index")

/-- Embedding of `_plot_bayes_cone(returns_train, returns_test, preds, plot_train_len,
ax)`: the numeric steps — the cumulative train path, its final value read by
`iloc[-1]`, the cumulative test path started there, the cone at that
starting value, the reindexing of the bands over the test dates, and the
stitching read of the first test value — and then the rendering, done
entirely through the external collaborator (including the optional
`plot_train_len` slicing, which alters only what is drawn). -/
def _plot_bayes_cone (render : Except PyErr Unit)
    (returns_train returns_test : List ℚ) (preds : List (List ℚ)) :
    Except PyErr Unit := do
  let returns_train_cum := cum_returns returns_train 1
  let last ← ilocLast returns_train_cum
  let returns_test_cum := cum_returns returns_test last
  let perc := compute_bayes_cone preds last
  seriesReindexAll perc returns_test.length
  _ ← ilocFirst returns_test_cum
  render

/-- Embedding of `plot_bayes_cone(returns_train, returns_test, bmark, model, trace,
plot_train_len, ax, samples)`: run the model when no trace is supplied,
compute the consistency score from `trace['returns_missing']`, then render
the cone and the score text; the `(score, trace)` pair is returned only
after every rendering call has returned, with no exception handling in
between. -/
def plot_bayes_cone (render : Except PyErr Unit)
    (returns_train returns_test : List ℚ) (bmark : Option (List ℚ))
    (model : String) (trace : Option Trace) (samples : ℕ) (st : Models) :
    Models × Except PyErr (ℚ × Trace) :=
  let (st, traceRes) :=
    match trace with
    | none => run_model model returns_train (some returns_test) bmark samples st
    | some t => (st, .ok t)
  match traceRes with
  | .error e => (st, .error e)
  | .ok trace =>
    match compute_consistency_score returns_test trace.returns_missing with
    | .error e => (st, .error e)
    | .ok score =>
      match _plot_bayes_cone render returns_train returns_test
          trace.returns_missing with
      | .error e => (st, .error e)
      | .ok _ => (st, .ok (score, trace))

theorem length_coneScoreatpercentile (cum : List (List ℚ)) (p : ℚ) :
    (coneScoreatpercentile cum p).length = npWidth cum := by
  simp [coneScoreatpercentile, npT]

theorem compute_bayes_cone_band_length (preds : List (List ℚ)) (sv : ℚ) :
    ∀ kv ∈ compute_bayes_cone preds sv, kv.2.length = npWidth preds := by
  intro kv hkv
  unfold compute_bayes_cone at hkv
  rcases List.mem_map.mp hkv with ⟨p, _, hp⟩
  rw [← hp]
  rw [length_coneScoreatpercentile, npWidth_cum_scaled]

/-- With a non-empty train series, a test series matching the simulated
horizon and a non-empty test series, every numeric step of `_plot_bayes_cone`
succeeds and the function's outcome is exactly the renderer's outcome. -/
theorem _plot_bayes_cone_eq_render (render : Except PyErr Unit)
    (returns_train returns_test : List ℚ) (preds : List (List ℚ))
    (h3 : returns_train ≠ []) (h4 : returns_test ≠ [])
    (h5 : npWidth preds = returns_test.length) :
    _plot_bayes_cone render returns_train returns_test preds = render := by
  have hcne : cum_returns returns_train 1 ≠ [] := by
    intro hcon
    apply h3
    have hl := length_cum_returns returns_train 1
    rw [hcon] at hl
    exact List.length_eq_zero.mp hl.symm
  obtain ⟨last, hlast⟩ := Option.isSome_iff_exists.mp (List.getLast?_isSome.mpr hcne)
  have htne : cum_returns returns_test last ≠ [] := by
    intro hcon
    apply h4
    have hl := length_cum_returns returns_test last
    rw [hcon] at hl
    exact List.length_eq_zero.mp hl.symm
  obtain ⟨w, hw⟩ := Option.isSome_iff_exists.mp (List.head?_isSome.mpr htne)
  have hreidx : seriesReindexAll (compute_bayes_cone preds last)
      returns_test.length = .ok () := by
    unfold seriesReindexAll
    rw [if_pos]
    apply List.all_eq_true.mpr
    intro kv hkv
    simp only [decide_eq_true_eq]
    rw [compute_bayes_cone_band_length preds last kv hkv, h5]
  unfold _plot_bayes_cone ilocLast ilocFirst
  simp only [hlast, hreidx, hw, bind, Except.bind]

/-- C2 counterexample: on inputs where the consistency score is computable
(here it equals 200/3), a failing renderer makes `plot_bayes_cone` propagate
the plotting exception instead of returning the (score, trace) pair. -/
theorem plot_bayes_cone_render_failure_counterexample :
    compute_consistency_score [(1:ℚ)] [[(0:ℚ)], [(1:ℚ)], [(3:ℚ)]] = .ok (200 / 3) ∧
    (plot_bayes_cone (.error (.plotError "backend")) [(1:ℚ)] [(1:ℚ)] none "t"
        (some { draws := 500, varNames := ["mean returns"], returns_missing := [[(0:ℚ)], [(1:ℚ)], [(3:ℚ)]] }) 500
        pyfolioModels).2 =
      .error (.plotError "backend") := by
  have hscore : compute_consistency_score [(1:ℚ)] [[(0:ℚ)], [(1:ℚ)], [(3:ℚ)]] =
      .ok (200 / 3) := by
    norm_num [compute_consistency_score, cum_returns, cumprodAux, np_cumprod1p,
      pyListComp, npColumn, npWidth, percentileofscore_weak, npMean,
      List.countP, List.countP.go, bind, Except.bind, pure, Except.pure]
    rw [abs_of_nonneg (by norm_num : (0 : ℚ) ≤ 50 / 3)]
    norm_num
  have hplot := _plot_bayes_cone_eq_render (.error (.plotError "backend"))
    [(1:ℚ)] [(1:ℚ)] [[(0:ℚ)], [(1:ℚ)], [(3:ℚ)]] (by decide) (by decide) (by decide)
  refine ⟨hscore, ?_⟩
  unfold plot_bayes_cone
  simp only [hscore, hplot]

/-- C2 (amended): `plot_bayes_cone` computes the consistency score and the
trace before any rendering and independently of the renderer — when the
rendering collaborator succeeds the function returns exactly that pair, and
when it fails the plotting exception propagates, so the already-computed
(and uncorrupted) pair is not returned to the caller. -/
theorem plot_bayes_cone_render_independence
    (returns_train returns_test : List ℚ) (bmark : Option (List ℚ))
    (model : String) (trace : Option Trace) (samples : ℕ) (st st1 : Models)
    (t : Trace) (score : ℚ)
    (h1 : (match trace with
           | none => run_model model returns_train (some returns_test) bmark samples st
           | some t0 => (st, .ok t0)) = (st1, .ok t))
    (h2 : compute_consistency_score returns_test t.returns_missing = .ok score)
    (h3 : returns_train ≠ []) (h4 : returns_test ≠ [])
    (h5 : npWidth t.returns_missing = returns_test.length) :
    plot_bayes_cone (.ok ()) returns_train returns_test bmark model trace
        samples st = (st1, .ok (score, t)) ∧
    ∀ e : PyErr,
      plot_bayes_cone (.error e) returns_train returns_test bmark model trace
        samples st = (st1, .error e) := by
  constructor
  · unfold plot_bayes_cone
    rw [h1]
    simp only [h2, _plot_bayes_cone_eq_render (.ok ()) returns_train returns_test
      t.returns_missing h3 h4 h5]
  · intro e
    unfold plot_bayes_cone
    rw [h1]
    simp only [h2, _plot_bayes_cone_eq_render (.error e) returns_train returns_test
      t.returns_missing h3 h4 h5]

/-- Witness for C2 (amended) at a concrete supplied trace: with two simulated
paths around the realized one, the pair (100, trace) is returned when
rendering succeeds; and the error propagates for the concrete renderer
failure. -/
theorem plot_bayes_cone_render_independence_witness :
    (plot_bayes_cone (.ok ()) [(1:ℚ)] [(1:ℚ)] none "t"
        (some { draws := 500, varNames := ["mean returns"], returns_missing := [[(0:ℚ)], [(2:ℚ)]] }) 500 pyfolioModels =
      (pyfolioModels, .ok (100, { draws := 500, varNames := ["mean returns"], returns_missing := [[(0:ℚ)], [(2:ℚ)]] }))) ∧
    (plot_bayes_cone (.error (.plotError "agg")) [(1:ℚ)] [(1:ℚ)] none "t"
        (some { draws := 500, varNames := ["mean returns"], returns_missing := [[(0:ℚ)], [(2:ℚ)]] }) 500 pyfolioModels =
      (pyfolioModels, .error (.plotError "agg"))) := by
  have hscore : compute_consistency_score [(1:ℚ)]
      ({ draws := 500, varNames := ["mean returns"], returns_missing := [[(0:ℚ)], [(2:ℚ)]] } : Trace).returns_missing =
      .ok 100 := by
    norm_num [compute_consistency_score, cum_returns, cumprodAux, np_cumprod1p,
      pyListComp, npColumn, npWidth, percentileofscore_weak, npMean,
      List.countP, List.countP.go, bind, Except.bind, pure, Except.pure]
  have h := plot_bayes_cone_render_independence [(1:ℚ)] [(1:ℚ)] none "t"
    (some { draws := 500, varNames := ["mean returns"], returns_missing := [[(0:ℚ)], [(2:ℚ)]] }) 500 pyfolioModels
    pyfolioModels
    { draws := 500, varNames := ["mean returns"], returns_missing := [[(0:ℚ)], [(2:ℚ)]] } 100 rfl hscore (by decide)
    (by decide) (by decide)
  exact ⟨h.1, h.2 (.plotError "agg")⟩
